import Mathlib

/-!
# Job processor example: model and verified properties

A shallow embedding of `examples/job-processor`:

* `model/job_status.go`, `model/job_event.go`, `model/job_completion_event.go`
  (the data carriers),
* `logic/processor.go` (`NewJobProcessor`, `WithSuccessRate`,
  `WithProcessingTime`, `Process`),
* `main.go` (the `jobs.submit` subscription callback and the goroutine it spawns).

Conventions.

* Go `int`, `int64` and `time.Duration` values are mathematical integers
  (`Int`); every place where the source computes in 64-bit arithmetic wraps
  explicitly through `wrap64`.
* Pointers to strings (`*string`) are `Option String`; `nil` is `none`.
* A panic is the result `none`.
* Calls into `math/rand`, `time.Now` and the message bus are resolved by explicit
  inputs (the random draws, the clock reading and the error returned by
  `Publish`), so every definition is a total computable function.
* Observable effects (log calls, the `time.Sleep` argument, `Process`
  invocations, `Publish` attempts) are recorded in the returned values.
-/

namespace JobProcessorExample

/-! ## model/job_status.go -/

/-- Go `type JobStatus string`. -/
abbrev JobStatus := String

def JobStatusUnknown : JobStatus := "Unknown"
def JobStatusPending : JobStatus := "Pending"
def JobStatusProcessing : JobStatus := "Processing"
def JobStatusCompleted : JobStatus := "Completed"
def JobStatusFailed : JobStatus := "Failed"

/-! ## model/job_event.go, model/job_completion_event.go -/

/-- The type `uuid.UUID` is a 16-byte array; it is read as a 128-bit number. -/
abbrev UUID := Fin (2 ^ 128)

structure JobEvent where
  JobID : UUID
  Status : JobStatus
  Payload : Option String
  Result : Option String
  Error : Option String
  Timestamp : Int
deriving DecidableEq

structure JobCompletionEvent where
  JobID : UUID
  Status : JobStatus
  Result : Option String
  Error : Option String
  CompletedAt : Int
deriving DecidableEq

/-! ## 64-bit arithmetic and library calls used by logic/processor.go -/

def minInt64 : Int := -9223372036854775808
def maxInt64 : Int := 9223372036854775807

/-- Membership in the range of `int64`. -/
def inInt64 (x : Int) : Prop := minInt64 ≤ x ∧ x ≤ maxInt64

instance (x : Int) : Decidable (inInt64 x) := by
  unfold inInt64; exact inferInstance

/-- Two-complement wrap-around of a mathematical integer to `int64`. -/
def wrap64 (x : Int) : Int :=
  (x + 9223372036854775808) % 18446744073709551616 - 9223372036854775808

/-- The constant `time.Second`, in nanoseconds. -/
def Second : Int := 1000000000

/-- `rand.Int63n(n)`: panics when `n <= 0`, otherwise returns a value of
`[0, n)`. The value is selected by `draw`, the state of the random source;
every value of `[0, n)` is selected by some draw. -/
def Int63n (n : Int) (draw : Nat) : Option Int :=
  if n ≤ 0 then none else some ((draw : Int) % n)

/-- `rand.Intn(n)`: panics when `n <= 0`, otherwise returns a value of
`[0, n)` selected by `draw`. -/
def Intn (n : Int) (draw : Nat) : Option Int :=
  if n ≤ 0 then none else some ((draw : Int) % n)

/-- `Duration.Milliseconds`: `int64(d) / 1e6`, Go division truncating toward
zero. -/
def Milliseconds (d : Int) : Int := Int.tdiv d 1000000

/-- `fmt.Sprintf("Job processed successfully in %dms", ms)`; the verb `%d`
prints the decimal digits, preceded by `-` for a negative number. -/
def successText (ms : Int) : String :=
  "Job processed successfully in " ++ toString ms ++ "ms"

/-! ## logic/processor.go -/

inductive Level where
  | info
  | error
deriving DecidableEq

/-- One call on a logrus logger: the level, the `job_id` field when set, the
error attached with `WithError` when set, and the formatted message. -/
structure LogEntry where
  level : Level
  job_id : Option UUID
  err : Option String
  message : String
deriving DecidableEq

/-- The logger a pointer of type `*logrus.Logger` refers to. -/
inductive Logger where
  | standard
  | created
deriving DecidableEq

/-- The struct `JobProcessor`. The field `logger` is a pointer, `none` being
`nil`. -/
structure JobProcessor where
  SuccessRate : Int
  MinProcessingTime : Int
  MaxProcessingTime : Int
  logger : Option Logger
deriving DecidableEq

def NewJobProcessor : JobProcessor :=
  { SuccessRate := 90
    MinProcessingTime := 1 * Second
    MaxProcessingTime := 6 * Second
    logger := some Logger.standard }

/-- The method mutates its receiver and returns the receiver pointer; the
function returns the receiver after the call. -/
def WithSuccessRate (p : JobProcessor) (rate : Int) : JobProcessor :=
  let rate := if rate > 100 then 100 else rate
  { p with SuccessRate := rate }

/-- The method mutates its receiver and returns the receiver pointer; the
function returns the receiver after the call. -/
def WithProcessingTime (p : JobProcessor) (min max : Int) : JobProcessor :=
  { p with MinProcessingTime := min, MaxProcessingTime := max }

/-- What one returning call of `Process` did, in order: the log call made on
entry, the argument of `time.Sleep`, the log call made on the branch taken,
and the returned completion event. -/
structure ProcessRun where
  started : LogEntry
  slept : Int
  finished : LogEntry
  completion : JobCompletionEvent
deriving DecidableEq

/-- The method `Process`. `delay` and `roll` are the draws consumed by
`rand.Int63n` and `rand.Intn`, `now` is the value of `time.Now().Unix()`.
The result is `none` when the call panics (a `nil` logger, or a non-positive
argument of `rand.Int63n`). -/
def Process (p : JobProcessor) (event : JobEvent) (delay roll : Nat) (now : Int) :
    Option ProcessRun :=
  let payload := match event.Payload with
    | some s => s
    | none => "<no payload>"
  match p.logger with
  | none => none
  | some _ =>
    let started : LogEntry :=
      { level := Level.info, job_id := some event.JobID, err := none,
        message := "Processing job: " ++ payload }
    let processingRange := wrap64 (p.MaxProcessingTime - p.MinProcessingTime)
    match Int63n processingRange delay with
    | none => none
    | some v =>
      let processingTime := wrap64 (p.MinProcessingTime + v)
      match Intn 100 roll with
      | none => none
      | some r =>
        let success := decide (r < p.SuccessRate)
        if success then
          let result := successText (Milliseconds processingTime)
          some
            { started := started
              slept := processingTime
              finished :=
                { level := Level.info, job_id := some event.JobID, err := none,
                  message := "Job completed successfully" }
              completion :=
                { JobID := event.JobID
                  Status := JobStatusCompleted
                  Result := some result
                  Error := none
                  CompletedAt := now } }
        else
          let errorMsg := "Simulated processing failure"
          some
            { started := started
              slept := processingTime
              finished :=
                { level := Level.error, job_id := some event.JobID, err := none,
                  message := "Job failed" }
              completion :=
                { JobID := event.JobID
                  Status := JobStatusFailed
                  Result := none
                  Error := some errorMsg
                  CompletedAt := now } }

/-- The value `processingRange` computed by `Process`: the difference of the
two configured durations in wrapping 64-bit arithmetic. -/
def processingRange (p : JobProcessor) : Int :=
  wrap64 (p.MaxProcessingTime - p.MinProcessingTime)

/-- One call of a configuration method on a processor. -/
inductive ConfigCall where
  | withSuccessRate (rate : Int)
  | withProcessingTime (min max : Int)
deriving DecidableEq

def applyCall (p : JobProcessor) : ConfigCall → JobProcessor
  | ConfigCall.withSuccessRate rate => WithSuccessRate p rate
  | ConfigCall.withProcessingTime min max => WithProcessingTime p min max

/-- The processor `NewJobProcessor().c1(..).c2(..)...` for a chain of
configuration calls. -/
def configure (calls : List ConfigCall) : JobProcessor :=
  calls.foldl applyCall NewJobProcessor

/-! ## main.go -/

def JobSubmitSubject : String := "jobs.submit"
def JobCompleteSubject : String := "jobs.complete"

/-- A byte slice. -/
abbrev Bytes := List (Fin 256)

/-- The struct `nats.Msg`; the callback reads the field `Data` only. -/
structure Msg where
  Data : Bytes
deriving DecidableEq

/-- One delivery of a message to the subscription callback, together with what
the environment answers while it is handled: the two random draws and the
clock reading used by `Process`, and the error returned by `nc.Publish`
(`none` being `nil`). -/
structure Delivery where
  msg : Msg
  delay : Nat
  roll : Nat
  now : Int
  publishErr : Option String
deriving DecidableEq

/-- The observable steps of the callback and of the goroutine it starts. -/
inductive Action where
  | log (entry : LogEntry)
  | invoke (event : JobEvent)
  | sleep (d : Int)
  | publish (subject : String) (data : Bytes)
  | crash
deriving DecidableEq

/-- The function `json.Marshal` applied to a `JobCompletionEvent`. Every field
of the struct is a string, a string pointer, an `int64` or a UUID (whose
`MarshalText` returns no error), so the call returns the encoding and a `nil`
error; `encode` is the byte-level JSON encoding. -/
def jsonMarshal (encode : JobCompletionEvent → Bytes) (c : JobCompletionEvent) :
    Except String Bytes :=
  Except.ok (encode c)

/-- The body of the goroutine `go func(e model.JobEvent) ...` of the
callback. The step `invoke e` is the call `processor.Process(e)`, followed by
the log calls and the sleep of that call; when the call panics the goroutine
ends in `crash` (the log call `Process` may have made before the panic is not
recorded). -/
def worker (processor : JobProcessor) (Marshal : JobCompletionEvent → Except String Bytes)
    (e : JobEvent) (d : Delivery) : List Action :=
  match Process processor e d.delay d.roll d.now with
  | none => [Action.invoke e, Action.crash]
  | some run =>
    let completion := run.completion
    [Action.invoke e, Action.log run.started, Action.sleep run.slept,
      Action.log run.finished] ++
    match Marshal completion with
    | Except.error err =>
      [Action.log
        { level := Level.error, job_id := some completion.JobID, err := some err,
          message := "Failed to serialize completion event" }]
    | Except.ok completionData =>
      match d.publishErr with
      | some err =>
        [Action.publish JobCompleteSubject completionData,
          Action.log
            { level := Level.error, job_id := some completion.JobID, err := some err,
              message := "Failed to publish completion" }]
      | none =>
        [Action.publish JobCompleteSubject completionData,
          Action.log
            { level := Level.info, job_id := some completion.JobID, err := none,
              message := "Published completion" }]

/-- The callback passed to `nc.Subscribe(JobSubmitSubject, ...)`: the steps it
performs itself, and the steps of the goroutine it starts (`none` when it
starts none). `Unmarshal` is `json.Unmarshal` into a `JobEvent`. -/
def handler (processor : JobProcessor) (Unmarshal : Bytes → Except String JobEvent)
    (Marshal : JobCompletionEvent → Except String Bytes) (d : Delivery) :
    List Action × Option (List Action) :=
  match Unmarshal d.msg.Data with
  | Except.error err =>
    ([Action.log
        { level := Level.error, job_id := none, err := some err,
          message := "Failed to parse job event" }], none)
  | Except.ok event =>
    ([Action.log
        { level := Level.info, job_id := some event.JobID, err := none,
          message := "Received job" }],
      some (worker processor Marshal event d))

/-- The callback as `main` installs it: the processor is
`logic.NewJobProcessor()`, unconfigured. -/
def mainHandler (Unmarshal : Bytes → Except String JobEvent)
    (encode : JobCompletionEvent → Bytes) (d : Delivery) :
    List Action × Option (List Action) :=
  handler NewJobProcessor Unmarshal (jsonMarshal encode) d

/-- All steps caused by one delivery: the callback, then its goroutine. -/
def deliveryTrace (h : Delivery → List Action × Option (List Action)) (d : Delivery) :
    List Action :=
  (h d).1 ++ (h d).2.getD []

/-- The events `Process` was invoked on, in trace order. -/
def processCalls (t : List Action) : List JobEvent :=
  t.filterMap fun a =>
    match a with
    | Action.invoke e => some e
    | _ => none

/-- The `Publish` attempts (subject and data), in trace order. -/
def publishes (t : List Action) : List (String × Bytes) :=
  t.filterMap fun a =>
    match a with
    | Action.publish subject data => some (subject, data)
    | _ => none

/-- `Shuffle xs ys zs`: `zs` is an interleaving of `xs` and `ys` that keeps
the order inside each of them. -/
inductive Shuffle {α : Type} : List α → List α → List α → Prop where
  | nil : Shuffle [] [] []
  | left {x : α} {xs ys zs : List α} : Shuffle xs ys zs → Shuffle (x :: xs) ys (x :: zs)
  | right {y : α} {xs ys zs : List α} : Shuffle xs ys zs → Shuffle xs (y :: ys) (y :: zs)

/-- `Interleaving ts z`: `z` is an interleaving of all the traces of `ts`.
Goroutines of different deliveries run concurrently, so an execution of the
program on a sequence of deliveries is an interleaving of the traces of the
deliveries. -/
inductive Interleaving {α : Type} : List (List α) → List α → Prop where
  | nil : Interleaving [] []
  | cons {t rest z : List α} {ts : List (List α)} :
      Interleaving ts rest → Shuffle t rest z → Interleaving (t :: ts) z

/-- The interleaving that alternates between the two lists. -/
def alternate {α : Type} : List α → List α → List α
  | [], ys => ys
  | x :: xs, [] => x :: xs
  | x :: xs, y :: ys => x :: y :: alternate xs ys

/-- The successfully decoded events of a sequence of deliveries. -/
def decodedEvents (Unmarshal : Bytes → Except String JobEvent) (ds : List Delivery) :
    List JobEvent :=
  ds.filterMap fun d => (Unmarshal d.msg.Data).toOption

/-! ## Concrete inputs -/

def sampleEvent : JobEvent :=
  { JobID := 7, Status := JobStatusPending, Payload := some "hello", Result := none,
    Error := none, Timestamp := 1700000000 }

def sampleCompletedRun : ProcessRun :=
  { started := { level := Level.info, job_id := some 7, err := none,
                 message := "Processing job: hello" }
    slept := 4456789012
    finished := { level := Level.info, job_id := some 7, err := none,
                  message := "Job completed successfully" }
    completion := { JobID := 7, Status := "Completed",
                    Result := some "Job processed successfully in 4456ms",
                    Error := none, CompletedAt := 1700000003 } }

def sampleFailedRun : ProcessRun :=
  { started := { level := Level.info, job_id := some 7, err := none,
                 message := "Processing job: hello" }
    slept := 4456789012
    finished := { level := Level.error, job_id := some 7, err := none,
                  message := "Job failed" }
    completion := { JobID := 7, Status := "Failed", Result := none,
                    Error := some "Simulated processing failure",
                    CompletedAt := 1700000003 } }

def otherEvent : JobEvent :=
  { JobID := 8, Status := JobStatusUnknown, Payload := none, Result := none,
    Error := some "earlier failure", Timestamp := 12 }

def otherCompletedRun : ProcessRun :=
  { started := { level := Level.info, job_id := some 8, err := none,
                 message := "Processing job: <no payload>" }
    slept := 2000000077
    finished := { level := Level.info, job_id := some 8, err := none,
                  message := "Job completed successfully" }
    completion := { JobID := 8, Status := "Completed",
                    Result := some "Job processed successfully in 2000ms",
                    Error := none, CompletedAt := 1700000099 } }

/-- The ASCII bytes of a text. -/
def asciiBytes (s : String) : Bytes :=
  s.toList.map fun c => Fin.ofNat c.toNat

/-- The JSON document of `sampleEvent`. -/
def sampleData : Bytes :=
  asciiBytes ("\x7b\"job_id\":\"00000000-0000-0000-0000-000000000007\"," ++
    "\"status\":\"Pending\",\"payload\":\"hello\",\"timestamp\":1700000000\x7d")

/-- A byte sequence that is not a JSON document. -/
def malformedData : Bytes := asciiBytes "not json"

/-- A decoder that agrees with `json.Unmarshal` on the two documents used in
the concrete examples: it decodes `sampleData` to `sampleEvent` and reports a
syntax error elsewhere. -/
def sampleUnmarshal (data : Bytes) : Except String JobEvent :=
  if data = sampleData then Except.ok sampleEvent
  else Except.error "invalid character"

/-- An encoder for the concrete examples; only the status is written. -/
def sampleEncode (c : JobCompletionEvent) : Bytes :=
  asciiBytes c.Status

def sampleDelivery : Delivery :=
  { msg := { Data := sampleData }, delay := 123456789012, roll := 5, now := 1700000003,
    publishErr := none }

/-- A redelivery of the message of `sampleDelivery`, with other draws. -/
def sampleRedelivery : Delivery :=
  { msg := { Data := sampleData }, delay := 42, roll := 95, now := 1700000004,
    publishErr := some "nats: connection closed" }

def malformedDelivery : Delivery :=
  { msg := { Data := malformedData }, delay := 0, roll := 0, now := 1700000005,
    publishErr := none }

/-- The completion event the program publishes for a delivery; `none` when the
message does not decode. -/
def completionOf (Unmarshal : Bytes → Except String JobEvent) (d : Delivery) :
    Option JobCompletionEvent :=
  match Unmarshal d.msg.Data with
  | Except.ok e =>
    (Process NewJobProcessor e d.delay d.roll d.now).map fun run => run.completion
  | Except.error _ => none

/-- The completion events of a sequence of deliveries, as `Publish` attempts. -/
def completionsOf (Unmarshal : Bytes → Except String JobEvent)
    (encode : JobCompletionEvent → Bytes) (ds : List Delivery) : List (String × Bytes) :=
  ds.filterMap fun d =>
    (completionOf Unmarshal d).map fun c => (JobCompleteSubject, encode c)

/-- Two deliveries of the same message, handled concurrently: the steps of
the two deliveries alternate. -/
def sampleSchedule : List Action :=
  alternate (deliveryTrace (mainHandler sampleUnmarshal sampleEncode) sampleDelivery)
    (deliveryTrace (mainHandler sampleUnmarshal sampleEncode) sampleRedelivery)

def sampleDeliveries : List Delivery :=
  [sampleDelivery, malformedDelivery, sampleRedelivery]

/-! ## Properties of logic/processor.go -/

theorem wrap64_of_inInt64 {x : Int} (h : inInt64 x) : wrap64 x = x := by
  unfold inInt64 minInt64 maxInt64 at h
  unfold wrap64
  omega

theorem wrap64_inInt64 (x : Int) : inInt64 (wrap64 x) := by
  unfold inInt64 minInt64 maxInt64 wrap64
  omega

theorem Process_spec {p : JobProcessor} {event : JobEvent} {delay roll : Nat} {now : Int}
    {run : ProcessRun} (h : Process p event delay roll now = some run) :
    p.logger ≠ none ∧ 0 < processingRange p ∧
    run.slept = wrap64 (p.MinProcessingTime + (delay : Int) % processingRange p) ∧
    run.completion.JobID = event.JobID ∧ run.completion.CompletedAt = now ∧
    (((roll : Int) % 100 < p.SuccessRate ∧ run.completion.Status = JobStatusCompleted ∧
        run.completion.Result = some (successText (Milliseconds run.slept)) ∧
        run.completion.Error = none) ∨
      (¬ ((roll : Int) % 100 < p.SuccessRate) ∧ run.completion.Status = JobStatusFailed ∧
        run.completion.Result = none ∧
        run.completion.Error = some "Simulated processing failure")) := by
  unfold Process at h
  cases hl : p.logger with
  | none => simp [hl] at h
  | some lg =>
    simp only [hl] at h
    by_cases hr : wrap64 (p.MaxProcessingTime - p.MinProcessingTime) ≤ 0
    · simp [Int63n, hr] at h
    · by_cases hs : (roll : Int) % 100 < p.SuccessRate
      · simp [Int63n, Intn, hr, hs] at h
        subst h
        simp [processingRange, hs]
        omega
      · simp [Int63n, Intn, hr, hs] at h
        subst h
        simp [processingRange, hs]
        omega

theorem Process_returns (p : JobProcessor) (event : JobEvent) (delay roll : Nat) (now : Int)
    (hl : p.logger ≠ none) (hr : 0 < processingRange p) :
    ∃ run, Process p event delay roll now = some run := by
  unfold processingRange at hr
  have hr' : ¬ wrap64 (p.MaxProcessingTime - p.MinProcessingTime) ≤ 0 := by omega
  cases hlg : p.logger with
  | none => exact absurd hlg hl
  | some lg =>
    unfold Process
    by_cases hs : (roll : Int) % 100 < p.SuccessRate
    · simp [hlg, Int63n, Intn, hr', hs]
    · simp [hlg, Int63n, Intn, hr', hs]

theorem successText_ne_empty (ms : Int) : successText ms ≠ "" := by
  intro h
  have hlen := congrArg String.length h
  simp [successText, String.length_append] at hlen
  exact absurd hlen.2 (by decide)

theorem configure_logger (calls : List ConfigCall) : (configure calls).logger ≠ none := by
  have key : ∀ (cs : List ConfigCall) (p : JobProcessor), p.logger ≠ none →
      (cs.foldl applyCall p).logger ≠ none := by
    intro cs
    induction cs with
    | nil => intro p hp; simpa using hp
    | cons c cs ih =>
      intro p hp
      simp only [List.foldl_cons]
      apply ih
      cases c <;> simpa [applyCall, WithSuccessRate, WithProcessingTime] using hp
  exact key calls NewJobProcessor (by simp [NewJobProcessor])

theorem Milliseconds_error_lt (d : Int) : (d - Milliseconds d * 1000000).natAbs < 1000000 := by
  unfold Milliseconds
  rcases le_or_lt 0 d with hd | hd
  · rw [Int.tdiv_eq_ediv hd (by decide)]
    omega
  · have hneg : d.tdiv 1000000 = -((-d) / 1000000) := by
      rw [← Int.tdiv_eq_ediv (by omega) (by decide), Int.neg_tdiv, neg_neg]
    rw [hneg]
    omega

theorem Milliseconds_eq (d : Int) :
    Milliseconds d = if 0 ≤ d then d / 1000000 else -((-d) / 1000000) := by
  unfold Milliseconds
  split_ifs with hd
  · exact Int.tdiv_eq_ediv hd (by decide)
  · rw [← Int.tdiv_eq_ediv (by omega) (by decide), Int.neg_tdiv, neg_neg]

theorem processingRange_NewJobProcessor : processingRange NewJobProcessor = 5000000000 := by
  decide

theorem NewJobProcessor_returns (event : JobEvent) (delay roll : Nat) (now : Int) :
    ∃ run, Process NewJobProcessor event delay roll now = some run :=
  Process_returns NewJobProcessor event delay roll now (by simp [NewJobProcessor])
    (by rw [processingRange_NewJobProcessor]; decide)

/-- Claim C1: whenever `Process` returns, the completion event has exactly one
of `Result` and `Error` set: either the status is `Completed` with a result
and no error, or the status is `Failed` with an error and no result. -/
theorem Process_exactly_one_of_result_error (p : JobProcessor) (event : JobEvent)
    (delay roll : Nat) (now : Int) (run : ProcessRun)
    (h : Process p event delay roll now = some run) :
    ((run.completion.Status = JobStatusCompleted ∧ run.completion.Result ≠ none ∧
        run.completion.Error = none) ∨
      (run.completion.Status = JobStatusFailed ∧ run.completion.Error ≠ none ∧
        run.completion.Result = none)) ∧
    (run.completion.Result = none ↔ run.completion.Error ≠ none) := by
  obtain ⟨-, -, -, -, -, hc | hf⟩ := Process_spec h
  · exact ⟨Or.inl (by simp [hc.2.1, hc.2.2.1, hc.2.2.2]), by simp [hc.2.2.1, hc.2.2.2]⟩
  · exact ⟨Or.inr (by simp [hf.2.1, hf.2.2.1, hf.2.2.2]), by simp [hf.2.2.1, hf.2.2.2]⟩

/-- Claim C1 at the default processor, for a draw that succeeds. -/
theorem Process_exactly_one_of_result_error_witness :
    Process NewJobProcessor sampleEvent 123456789012 5 1700000003 =
        some sampleCompletedRun ∧
      ((sampleCompletedRun.completion.Status = JobStatusCompleted ∧
          sampleCompletedRun.completion.Result ≠ none ∧
          sampleCompletedRun.completion.Error = none) ∨
        (sampleCompletedRun.completion.Status = JobStatusFailed ∧
          sampleCompletedRun.completion.Error ≠ none ∧
          sampleCompletedRun.completion.Result = none)) :=
  ⟨by decide,
    (Process_exactly_one_of_result_error NewJobProcessor sampleEvent 123456789012 5
      1700000003 sampleCompletedRun (by decide)).1⟩

/-- Claim C4: whenever `Process` returns, the completion event carries the job
identifier of the input event, its status is `Completed` or `Failed`, and on
the `Completed` branch the result string is not empty. -/
theorem Process_keeps_job_id (p : JobProcessor) (event : JobEvent)
    (delay roll : Nat) (now : Int) (run : ProcessRun)
    (h : Process p event delay roll now = some run) :
    run.completion.JobID = event.JobID ∧
      (run.completion.Status = JobStatusCompleted ∨
        run.completion.Status = JobStatusFailed) ∧
      (run.completion.Status = JobStatusCompleted →
        ∃ s, run.completion.Result = some s ∧ s ≠ "") := by
  obtain ⟨-, -, -, hid, -, hc | hf⟩ := Process_spec h
  · exact ⟨hid, Or.inl hc.2.1, fun _ => ⟨_, hc.2.2.1, successText_ne_empty _⟩⟩
  · refine ⟨hid, Or.inr hf.2.1, fun hs => ?_⟩
    rw [hf.2.1] at hs
    exact absurd hs (by decide)

/-- Claim C4 at the default processor, for a draw that succeeds. -/
theorem Process_keeps_job_id_witness :
    Process NewJobProcessor sampleEvent 123456789012 5 1700000003 = some sampleCompletedRun ∧
      sampleCompletedRun.completion.JobID = sampleEvent.JobID ∧
      (sampleCompletedRun.completion.Status = JobStatusCompleted ∨
        sampleCompletedRun.completion.Status = JobStatusFailed) ∧
      (sampleCompletedRun.completion.Status = JobStatusCompleted →
        ∃ s, sampleCompletedRun.completion.Result = some s ∧ s ≠ "") :=
  ⟨by decide,
    Process_keeps_job_id NewJobProcessor sampleEvent 123456789012 5 1700000003
      sampleCompletedRun (by decide)⟩

/-- Claim C5: the status returned by `Process` depends on the success roll and
on `SuccessRate` only. With `r` the value of `rand.Intn(100)` (so
`0 ≤ r < 100`), the status is `Completed` exactly when `r < SuccessRate` and
`Failed` otherwise; two runs with the same roll and the same `SuccessRate`
return the same status, whatever their events, delays, clock readings and
processing-time bounds. -/
theorem Process_status_determined_by_roll (p₁ p₂ : JobProcessor) (e₁ e₂ : JobEvent)
    (delay₁ delay₂ roll : Nat) (now₁ now₂ : Int) (run₁ run₂ : ProcessRun)
    (hrate : p₁.SuccessRate = p₂.SuccessRate)
    (h₁ : Process p₁ e₁ delay₁ roll now₁ = some run₁)
    (h₂ : Process p₂ e₂ delay₂ roll now₂ = some run₂) :
    ∃ r, Intn 100 roll = some r ∧ 0 ≤ r ∧ r < 100 ∧
      (run₁.completion.Status = JobStatusCompleted ↔ r < p₁.SuccessRate) ∧
      (run₁.completion.Status = JobStatusFailed ↔ ¬ r < p₁.SuccessRate) ∧
      run₁.completion.Status = run₂.completion.Status := by
  have hne : JobStatusCompleted ≠ JobStatusFailed := by decide
  refine ⟨(roll : Int) % 100, by simp [Intn], by omega, by omega, ?_⟩
  obtain ⟨-, -, -, -, -, hc₁ | hf₁⟩ := Process_spec h₁ <;>
    obtain ⟨-, -, -, -, -, hc₂ | hf₂⟩ := Process_spec h₂
  · simp [hc₁.1, hc₁.2.1, hc₂.2.1, hne]
  · exact absurd (hrate ▸ hc₁.1) hf₂.1
  · exact absurd (hrate ▸ hc₂.1) hf₁.1
  · simp [hf₁.1, hf₁.2.1, hf₂.2.1, hne.symm]

/-- Claim C5 at two different events, delays and clock readings. -/
theorem Process_status_determined_by_roll_witness :
    ∃ r, Intn 100 5 = some r ∧ 0 ≤ r ∧ r < 100 ∧
      (sampleCompletedRun.completion.Status = JobStatusCompleted ↔
        r < NewJobProcessor.SuccessRate) ∧
      (sampleCompletedRun.completion.Status = JobStatusFailed ↔
        ¬ r < NewJobProcessor.SuccessRate) ∧
      sampleCompletedRun.completion.Status = otherCompletedRun.completion.Status :=
  Process_status_determined_by_roll NewJobProcessor
    (WithProcessingTime NewJobProcessor (2 * Second) (3 * Second)) sampleEvent otherEvent
    123456789012 77 5 1700000003 1700000099 sampleCompletedRun otherCompletedRun rfl
    (by decide) (by decide)

/-- Claim C7: for a processor whose two durations are `int64` values with
`MinProcessingTime < MaxProcessingTime` and a difference that does not
overflow, `Process` returns (given a logger) and the duration `d` it sleeps for
satisfies `MinProcessingTime ≤ d < MaxProcessingTime`. A `Completed` result is
the text `Job processed successfully in ` followed by the decimal digits of
`d` in whole milliseconds (the quotient of `d` by `1000000`, rounded toward
zero) and by `ms`. With the defaults of `NewJobProcessor` the duration lies in
`[1s, 6s)` and the reported number in `[1000, 6000)`. -/
theorem Process_processingTime_in_range (p : JobProcessor) (event : JobEvent)
    (delay roll : Nat) (now : Int)
    (hmin : inInt64 p.MinProcessingTime) (hmax : inInt64 p.MaxProcessingTime)
    (hlt : p.MinProcessingTime < p.MaxProcessingTime)
    (hno : p.MaxProcessingTime - p.MinProcessingTime ≤ maxInt64) :
    (p.logger ≠ none → ∃ run, Process p event delay roll now = some run) ∧
    (∀ run, Process p event delay roll now = some run →
      p.MinProcessingTime ≤ run.slept ∧ run.slept < p.MaxProcessingTime ∧
      (run.completion.Status = JobStatusCompleted →
        run.completion.Result = some (successText (Milliseconds run.slept))) ∧
      (run.slept - Milliseconds run.slept * 1000000).natAbs < 1000000 ∧
      (run.completion.Status = JobStatusCompleted →
        ∃ ms : Int,
          run.completion.Result =
            some ("Job processed successfully in " ++ toString ms ++ "ms") ∧
          ms = (if 0 ≤ run.slept then run.slept / 1000000
            else -((-run.slept) / 1000000)) ∧
          (0 ≤ run.slept → ms * 1000000 ≤ run.slept ∧ run.slept < (ms + 1) * 1000000) ∧
          (run.slept < 0 → (ms - 1) * 1000000 < run.slept ∧ run.slept ≤ ms * 1000000))) ∧
    (∃ run, Process NewJobProcessor event delay roll now = some run ∧
      1 * Second ≤ run.slept ∧ run.slept < 6 * Second ∧
      (run.completion.Status = JobStatusCompleted →
        run.completion.Result =
          some ("Job processed successfully in " ++ toString (run.slept / 1000000) ++
            "ms")) ∧
      1000 ≤ run.slept / 1000000 ∧ run.slept / 1000000 < 6000) := by
  have hrange : processingRange p = p.MaxProcessingTime - p.MinProcessingTime := by
    unfold processingRange
    apply wrap64_of_inInt64
    unfold inInt64 minInt64 maxInt64 at *
    omega
  have hslept : ∀ (q : JobProcessor) (run : ProcessRun),
      inInt64 q.MinProcessingTime → inInt64 q.MaxProcessingTime →
      processingRange q = q.MaxProcessingTime - q.MinProcessingTime →
      Process q event delay roll now = some run →
      q.MinProcessingTime ≤ run.slept ∧ run.slept < q.MaxProcessingTime := by
    intro q run hqmin hqmax hq hrun
    obtain ⟨-, hpos, hs, -⟩ := Process_spec hrun
    rw [hq] at hpos hs
    have h0 := Int.emod_nonneg (delay : Int) (ne_of_gt hpos)
    have h1 := Int.emod_lt_of_pos (delay : Int) hpos
    have hin : inInt64 (q.MinProcessingTime +
        (delay : Int) % (q.MaxProcessingTime - q.MinProcessingTime)) := by
      unfold inInt64 minInt64 maxInt64 at *
      omega
    rw [wrap64_of_inInt64 hin] at hs
    omega
  have htext : ∀ (q : JobProcessor) (run : ProcessRun),
      Process q event delay roll now = some run →
      run.completion.Status = JobStatusCompleted →
      run.completion.Result = some (successText (Milliseconds run.slept)) := by
    intro q run hrun hst
    obtain ⟨-, -, -, -, -, hc | hf⟩ := Process_spec hrun
    · exact hc.2.2.1
    · rw [hf.2.1] at hst
      exact absurd hst (by decide)
  refine ⟨fun hl => Process_returns p event delay roll now hl (by rw [hrange]; omega), ?_, ?_⟩
  · intro run hrun
    obtain ⟨h1, h2⟩ := hslept p run hmin hmax hrange hrun
    refine ⟨h1, h2, htext p run hrun, Milliseconds_error_lt _, fun hst => ?_⟩
    refine ⟨Milliseconds run.slept, ?_, Milliseconds_eq _, ?_, ?_⟩
    · rw [htext p run hrun hst]
      rfl
    · intro hd
      rw [Milliseconds_eq, if_pos hd]
      omega
    · intro hd
      rw [Milliseconds_eq, if_neg (by omega)]
      omega
  · obtain ⟨run, hrun⟩ := NewJobProcessor_returns event delay roll now
    have hb := hslept NewJobProcessor run (by decide) (by decide)
      (by rw [processingRange_NewJobProcessor]; decide) hrun
    have hlo : (1000000000 : Int) ≤ run.slept := hb.1
    have hhi : run.slept < 6000000000 := hb.2
    refine ⟨run, hrun, hb.1, hb.2, fun hst => ?_, by omega, by omega⟩
    rw [htext NewJobProcessor run hrun hst, Milliseconds_eq, if_pos (by omega)]
    rfl

/-- Claim C7 at the default processor: a run that sleeps `4456789012ns` reports
`4456ms`. -/
theorem Process_processingTime_in_range_witness :
    (inInt64 NewJobProcessor.MinProcessingTime ∧ inInt64 NewJobProcessor.MaxProcessingTime ∧
      NewJobProcessor.MinProcessingTime < NewJobProcessor.MaxProcessingTime ∧
      NewJobProcessor.MaxProcessingTime - NewJobProcessor.MinProcessingTime ≤ maxInt64) ∧
    Process NewJobProcessor sampleEvent 123456789012 5 1700000003 = some sampleCompletedRun ∧
    NewJobProcessor.MinProcessingTime ≤ sampleCompletedRun.slept ∧
    sampleCompletedRun.slept < NewJobProcessor.MaxProcessingTime ∧
    sampleCompletedRun.slept = 4456789012 ∧
    ∃ ms : Int,
      sampleCompletedRun.completion.Result =
        some ("Job processed successfully in " ++ toString ms ++ "ms") ∧
      ms = 4456 :=
  ⟨by decide, by decide,
    ((Process_processingTime_in_range NewJobProcessor sampleEvent 123456789012 5 1700000003
      (by decide) (by decide) (by decide) (by decide)).2.1 sampleCompletedRun (by decide)).1,
    ((Process_processingTime_in_range NewJobProcessor sampleEvent 123456789012 5 1700000003
      (by decide) (by decide) (by decide) (by decide)).2.1 sampleCompletedRun (by decide)).2.1,
    by decide,
    (((Process_processingTime_in_range NewJobProcessor sampleEvent 123456789012 5 1700000003
      (by decide) (by decide) (by decide) (by decide)).2.1 sampleCompletedRun
      (by decide)).2.2.2.2 (by decide)).imp fun _ h => ⟨h.1, h.2.1.trans (by decide)⟩⟩

/-- Claim C9: `WithSuccessRate` stores `min rate 100` in `SuccessRate`, leaves
the other three fields as they are and returns the receiver; applying it
twice with the same rate equals applying it once; the stored rate is at most
`100`, and a negative rate is stored unchanged. -/
theorem WithSuccessRate_sets_clamped_rate (p : JobProcessor) (rate : Int) :
    WithSuccessRate p rate = { p with SuccessRate := min rate 100 } ∧
    (WithSuccessRate p rate).SuccessRate = min rate 100 ∧
    (WithSuccessRate p rate).MinProcessingTime = p.MinProcessingTime ∧
    (WithSuccessRate p rate).MaxProcessingTime = p.MaxProcessingTime ∧
    (WithSuccessRate p rate).logger = p.logger ∧
    WithSuccessRate (WithSuccessRate p rate) rate = WithSuccessRate p rate ∧
    (WithSuccessRate p rate).SuccessRate ≤ 100 ∧
    (rate < 0 → (WithSuccessRate p rate).SuccessRate = rate ∧
      (WithSuccessRate p rate).SuccessRate < 0) := by
  have hmin : (if rate > 100 then 100 else rate) = min rate 100 := by
    split_ifs with h
    · exact (min_eq_right (le_of_lt h)).symm
    · exact (min_eq_left (not_lt.mp h)).symm
  have hset : WithSuccessRate p rate = { p with SuccessRate := min rate 100 } := by
    simp only [WithSuccessRate, hmin]
  refine ⟨hset, ?_, ?_, ?_, ?_, ?_, ?_, ?_⟩
  · rw [hset]
  · rw [hset]
  · rw [hset]
  · rw [hset]
  · simp only [WithSuccessRate, hmin]
  · rw [hset]; exact min_le_right _ _
  · intro hneg
    rw [hset]
    have : min rate 100 = rate := min_eq_left (by omega)
    simp only [this]
    exact ⟨trivial, hneg⟩

/-- Claim C9 at the rate `-5`. -/
theorem WithSuccessRate_sets_clamped_rate_witness :
    (WithSuccessRate NewJobProcessor (-5)).SuccessRate = -5 ∧
      (WithSuccessRate NewJobProcessor (-5)).SuccessRate < 0 :=
  (WithSuccessRate_sets_clamped_rate NewJobProcessor (-5)).2.2.2.2.2.2.2 (by decide)

/-- Claim C8 as stated fails: after `WithProcessingTime(min, max)` with
`max ≤ min` a call of `Process` need not panic. With `min = 2^62` and
`max = -2^62 - 1` the difference `max - min` wraps to `2^63 - 1`, the draw
`2^62` is accepted, the sum wraps to `-2^63`, and `Process` returns a
`Completed` event. -/
theorem WithProcessingTime_max_le_min_returns :
    inInt64 4611686018427387904 ∧ inInt64 (-4611686018427387905) ∧
    (-4611686018427387905 : Int) ≤ 4611686018427387904 ∧
    processingRange
      (WithProcessingTime NewJobProcessor 4611686018427387904 (-4611686018427387905)) =
      9223372036854775807 ∧
    (Process (WithProcessingTime NewJobProcessor 4611686018427387904 (-4611686018427387905))
      sampleEvent 4611686018427387904 5 1700000003).map
        (fun run => (run.slept, run.completion.Status, run.completion.Result)) =
      some (-9223372036854775808, JobStatusCompleted,
        some "Job processed successfully in -9223372036854ms") := by
  decide

/-- Claim C8, amended: for a processor built by `NewJobProcessor` and any chain
of configuration calls, `Process` returns exactly when the difference
`MaxProcessingTime - MinProcessingTime`, wrapped to 64 bits, is positive;
after `WithProcessingTime(min, max)` with `max ≤ min` and `min - max ≤ 2^63`
every call of `Process` panics; the default configuration never panics. -/
theorem Process_returns_iff_range_positive (calls : List ConfigCall) (event : JobEvent)
    (delay roll : Nat) (now : Int) :
    ((Process (configure calls) event delay roll now).isSome = true ↔
      0 < wrap64 ((configure calls).MaxProcessingTime - (configure calls).MinProcessingTime)) ∧
    (∀ min max : Int, max ≤ min → min - max ≤ 9223372036854775808 →
      Process (WithProcessingTime (configure calls) min max) event delay roll now = none) ∧
    (Process NewJobProcessor event delay roll now).isSome = true := by
  refine ⟨⟨fun h => ?_, fun h => ?_⟩, ?_, ?_⟩
  · obtain ⟨run, hrun⟩ := Option.isSome_iff_exists.mp h
    exact (Process_spec hrun).2.1
  · obtain ⟨run, hrun⟩ :=
      Process_returns (configure calls) event delay roll now (configure_logger calls) h
    simp [hrun]
  · intro min max hle hno
    cases hp : Process (WithProcessingTime (configure calls) min max) event delay roll now with
    | none => rfl
    | some run =>
      have hpos := (Process_spec hp).2.1
      simp only [processingRange, WithProcessingTime, wrap64] at hpos
      omega
  · obtain ⟨run, hrun⟩ := NewJobProcessor_returns event delay roll now
    simp [hrun]

/-- Claim C8, amended, at equal bounds of five seconds. -/
theorem Process_returns_iff_range_positive_witness :
    Process (WithProcessingTime (configure [ConfigCall.withSuccessRate 50])
      (5 * Second) (5 * Second)) sampleEvent 123456789012 5 1700000003 = none :=
  (Process_returns_iff_range_positive [ConfigCall.withSuccessRate 50] sampleEvent
    123456789012 5 1700000003).2.1 (5 * Second) (5 * Second) (by decide) (by decide)

/-- Claim C10: whenever `Process` returns, a `SuccessRate` of at least `100`
gives status `Completed` with a result and no error, and a `SuccessRate` of at
most `0` gives status `Failed` with the error text
`Simulated processing failure` and no result; the same holds after
`WithSuccessRate(rate)` with `rate ≥ 100`, respectively `rate ≤ 0`. -/
theorem Process_deterministic_at_extreme_rates (p : JobProcessor) (event : JobEvent)
    (delay roll : Nat) (now : Int) :
    (∀ run, Process p event delay roll now = some run →
      (100 ≤ p.SuccessRate →
        run.completion.Status = JobStatusCompleted ∧ run.completion.Result ≠ none ∧
          run.completion.Error = none) ∧
      (p.SuccessRate ≤ 0 →
        run.completion.Status = JobStatusFailed ∧
          run.completion.Error = some "Simulated processing failure" ∧
          run.completion.Result = none)) ∧
    (∀ (rate : Int) run,
      Process (WithSuccessRate p rate) event delay roll now = some run →
      (100 ≤ rate →
        run.completion.Status = JobStatusCompleted ∧ run.completion.Result ≠ none ∧
          run.completion.Error = none) ∧
      (rate ≤ 0 →
        run.completion.Status = JobStatusFailed ∧
          run.completion.Error = some "Simulated processing failure" ∧
          run.completion.Result = none)) := by
  have key : ∀ (q : JobProcessor) (run : ProcessRun),
      Process q event delay roll now = some run →
      (100 ≤ q.SuccessRate →
        run.completion.Status = JobStatusCompleted ∧ run.completion.Result ≠ none ∧
          run.completion.Error = none) ∧
      (q.SuccessRate ≤ 0 →
        run.completion.Status = JobStatusFailed ∧
          run.completion.Error = some "Simulated processing failure" ∧
          run.completion.Result = none) := by
    intro q run hrun
    obtain ⟨-, -, -, -, -, hc | hf⟩ := Process_spec hrun
    · refine ⟨fun _ => ⟨hc.2.1, by simp [hc.2.2.1], hc.2.2.2⟩, fun h0 => ?_⟩
      have := hc.1
      omega
    · refine ⟨fun h100 => ?_, fun _ => ⟨hf.2.1, hf.2.2.2, hf.2.2.1⟩⟩
      have := hf.1
      omega
  refine ⟨key p, fun rate run hrun => ?_⟩
  obtain ⟨k1, k2⟩ := key (WithSuccessRate p rate) run hrun
  have hrate : (WithSuccessRate p rate).SuccessRate = if rate > 100 then 100 else rate := rfl
  refine ⟨fun h => k1 ?_, fun h => k2 ?_⟩
  · rw [hrate]; split_ifs <;> omega
  · rw [hrate]; split_ifs <;> omega

/-- Claim C10 after `WithSuccessRate(250)` and after `WithSuccessRate(-3)`. -/
theorem Process_deterministic_at_extreme_rates_witness :
    (sampleCompletedRun.completion.Status = JobStatusCompleted ∧
      sampleCompletedRun.completion.Result ≠ none ∧
      sampleCompletedRun.completion.Error = none) ∧
    (sampleFailedRun.completion.Status = JobStatusFailed ∧
      sampleFailedRun.completion.Error = some "Simulated processing failure" ∧
      sampleFailedRun.completion.Result = none) :=
  ⟨((Process_deterministic_at_extreme_rates NewJobProcessor sampleEvent 123456789012 95
      1700000003).2 250 sampleCompletedRun (by decide)).1 (by decide),
    ((Process_deterministic_at_extreme_rates NewJobProcessor sampleEvent 123456789012 5
      1700000003).2 (-3) sampleFailedRun (by decide)).2 (by decide)⟩

/-! ## Properties of main.go -/

theorem shuffle_perm {α : Type} {xs ys zs : List α} (h : Shuffle xs ys zs) :
    zs.Perm (xs ++ ys) := by
  induction h with
  | nil => exact List.Perm.refl _
  | left _ ih => exact List.Perm.cons _ ih
  | right _ ih => exact (List.Perm.cons _ ih).trans List.perm_middle.symm

theorem shuffle_nil_left {α : Type} (ys : List α) : Shuffle [] ys ys := by
  induction ys with
  | nil => exact Shuffle.nil
  | cons y ys ih => exact Shuffle.right ih

theorem shuffle_nil_right {α : Type} (xs : List α) : Shuffle xs [] xs := by
  induction xs with
  | nil => exact Shuffle.nil
  | cons x xs ih => exact Shuffle.left ih

theorem shuffle_append {α : Type} (xs ys : List α) : Shuffle xs ys (xs ++ ys) := by
  induction xs with
  | nil => exact shuffle_nil_left ys
  | cons x xs ih => exact Shuffle.left ih

theorem shuffle_alternate {α : Type} (xs ys : List α) :
    Shuffle xs ys (alternate xs ys) := by
  induction xs generalizing ys with
  | nil => exact shuffle_nil_left ys
  | cons x xs ih =>
    cases ys with
    | nil => exact shuffle_nil_right _
    | cons y ys => exact Shuffle.left (Shuffle.right (ih ys))

theorem interleaving_perm {α : Type} {ts : List (List α)} {z : List α}
    (h : Interleaving ts z) : z.Perm ts.flatten := by
  induction h with
  | nil => exact List.Perm.refl _
  | cons _ hs ih =>
    rw [List.flatten_cons]
    exact (shuffle_perm hs).trans (List.Perm.append_left _ ih)

theorem interleaving_flatten {α : Type} (ts : List (List α)) :
    Interleaving ts ts.flatten := by
  induction ts with
  | nil => exact Interleaving.nil
  | cons t ts ih => exact Interleaving.cons ih (shuffle_append t _)

theorem processCalls_append (s t : List Action) :
    processCalls (s ++ t) = processCalls s ++ processCalls t := by
  simp [processCalls]

theorem publishes_append (s t : List Action) :
    publishes (s ++ t) = publishes s ++ publishes t := by
  simp [publishes]

/-- The steps of a delivery whose message does not decode. -/
theorem deliveryTrace_malformed (processor : JobProcessor)
    (Unmarshal : Bytes → Except String JobEvent)
    (Marshal : JobCompletionEvent → Except String Bytes) (d : Delivery) (err : String)
    (h : Unmarshal d.msg.Data = Except.error err) :
    handler processor Unmarshal Marshal d =
      ([Action.log { level := Level.error, job_id := none, err := some err,
                     message := "Failed to parse job event" }], none) := by
  simp [handler, h]

/-- The steps of a delivery of `main` whose message decodes to `e`. -/
theorem deliveryTrace_decoded (Unmarshal : Bytes → Except String JobEvent)
    (encode : JobCompletionEvent → Bytes) (d : Delivery) (e : JobEvent)
    (h : Unmarshal d.msg.Data = Except.ok e) :
    ∃ run, Process NewJobProcessor e d.delay d.roll d.now = some run ∧
      deliveryTrace (mainHandler Unmarshal encode) d =
        [Action.log { level := Level.info, job_id := some e.JobID, err := none,
                      message := "Received job" },
          Action.invoke e, Action.log run.started, Action.sleep run.slept,
          Action.log run.finished,
          Action.publish JobCompleteSubject (encode run.completion),
          Action.log
            (match d.publishErr with
              | some err =>
                { level := Level.error, job_id := some run.completion.JobID,
                  err := some err, message := "Failed to publish completion" }
              | none =>
                { level := Level.info, job_id := some run.completion.JobID,
                  err := none, message := "Published completion" })] := by
  obtain ⟨run, hrun⟩ := NewJobProcessor_returns e d.delay d.roll d.now
  refine ⟨run, hrun, ?_⟩
  cases hp : d.publishErr <;>
    simp [deliveryTrace, mainHandler, handler, h, worker, hrun, jsonMarshal, hp]

theorem deliveryTrace_summary (Unmarshal : Bytes → Except String JobEvent)
    (encode : JobCompletionEvent → Bytes) (d : Delivery) :
    processCalls (deliveryTrace (mainHandler Unmarshal encode) d) =
        ((Unmarshal d.msg.Data).toOption).toList ∧
      publishes (deliveryTrace (mainHandler Unmarshal encode) d) =
        ((completionOf Unmarshal d).map fun c => (JobCompleteSubject, encode c)).toList ∧
      Action.crash ∉ deliveryTrace (mainHandler Unmarshal encode) d := by
  cases h : Unmarshal d.msg.Data with
  | error err =>
    have ht : deliveryTrace (mainHandler Unmarshal encode) d =
        [Action.log { level := Level.error, job_id := none, err := some err,
                      message := "Failed to parse job event" }] := by
      simp [deliveryTrace, mainHandler, deliveryTrace_malformed _ _ _ _ _ h]
    simp [ht, processCalls, publishes, completionOf, h, Except.toOption]
  | ok e =>
    obtain ⟨run, hrun, ht⟩ := deliveryTrace_decoded Unmarshal encode d e h
    simp [ht, processCalls, publishes, completionOf, h, hrun, Except.toOption]

theorem processCalls_flatten (Unmarshal : Bytes → Except String JobEvent)
    (encode : JobCompletionEvent → Bytes) (ds : List Delivery) :
    processCalls (ds.map (deliveryTrace (mainHandler Unmarshal encode))).flatten =
      decodedEvents Unmarshal ds := by
  induction ds with
  | nil => rfl
  | cons d ds ih =>
    rw [List.map_cons, List.flatten_cons, processCalls_append, ih,
      (deliveryTrace_summary Unmarshal encode d).1]
    cases h : (Unmarshal d.msg.Data).toOption <;> simp [decodedEvents, h]

theorem publishes_flatten (Unmarshal : Bytes → Except String JobEvent)
    (encode : JobCompletionEvent → Bytes) (ds : List Delivery) :
    publishes (ds.map (deliveryTrace (mainHandler Unmarshal encode))).flatten =
      completionsOf Unmarshal encode ds := by
  induction ds with
  | nil => rfl
  | cons d ds ih =>
    rw [List.map_cons, List.flatten_cons, publishes_append, ih,
      (deliveryTrace_summary Unmarshal encode d).2.1]
    cases h : completionOf Unmarshal d <;> simp [completionsOf, h]

theorem completionsOf_length (Unmarshal : Bytes → Except String JobEvent)
    (encode : JobCompletionEvent → Bytes) (ds : List Delivery) :
    (completionsOf Unmarshal encode ds).length = (decodedEvents Unmarshal ds).length := by
  induction ds with
  | nil => rfl
  | cons d ds ih =>
    have hc : completionsOf Unmarshal encode (d :: ds) =
        ((completionOf Unmarshal d).map fun c => (JobCompleteSubject, encode c)).toList ++
          completionsOf Unmarshal encode ds := by
      cases h : completionOf Unmarshal d <;> simp [completionsOf, h]
    have hd : decodedEvents Unmarshal (d :: ds) =
        ((Unmarshal d.msg.Data).toOption).toList ++ decodedEvents Unmarshal ds := by
      cases h : (Unmarshal d.msg.Data).toOption <;> simp [decodedEvents, h]
    rw [hc, hd, List.length_append, List.length_append, ih]
    congr 1
    cases h : Unmarshal d.msg.Data with
    | error err => simp [completionOf, h, Except.toOption]
    | ok e =>
      obtain ⟨run, hrun⟩ := NewJobProcessor_returns e d.delay d.roll d.now
      simp [completionOf, h, hrun, Except.toOption]

/-- Claim C3: when the bytes of a message do not decode, the callback makes one
error log call and starts no goroutine: `Process` is not invoked, nothing is
published, and nothing panics. -/
theorem malformed_message_only_logged (processor : JobProcessor)
    (Unmarshal : Bytes → Except String JobEvent)
    (Marshal : JobCompletionEvent → Except String Bytes) (d : Delivery) (err : String)
    (h : Unmarshal d.msg.Data = Except.error err) :
    handler processor Unmarshal Marshal d =
        ([Action.log { level := Level.error, job_id := none, err := some err,
                       message := "Failed to parse job event" }], none) ∧
      processCalls (deliveryTrace (handler processor Unmarshal Marshal) d) = [] ∧
      publishes (deliveryTrace (handler processor Unmarshal Marshal) d) = [] ∧
      Action.crash ∉ deliveryTrace (handler processor Unmarshal Marshal) d := by
  have hh := deliveryTrace_malformed processor Unmarshal Marshal d err h
  refine ⟨hh, ?_, ?_, ?_⟩ <;> simp [deliveryTrace, hh, processCalls, publishes]

/-- Claim C3 at a message that is not a JSON document. -/
theorem malformed_message_only_logged_witness :
    sampleUnmarshal malformedDelivery.msg.Data = Except.error "invalid character" ∧
      handler NewJobProcessor sampleUnmarshal (jsonMarshal sampleEncode) malformedDelivery =
        ([Action.log { level := Level.error, job_id := none,
                       err := some "invalid character",
                       message := "Failed to parse job event" }], none) :=
  ⟨rfl,
    (malformed_message_only_logged NewJobProcessor sampleUnmarshal (jsonMarshal sampleEncode)
      malformedDelivery "invalid character" rfl).1⟩

/-- Claim C6: the callback keeps no state. In every execution on a sequence of
deliveries the `Process` invocations are, up to order, the decoded events of
the deliveries (a redelivery included), the `Publish` attempts are, up to
order, their completions, and nothing panics. Each delivery that decodes
causes exactly one `Process` invocation and exactly one `Publish` attempt, of
its completion on the completion subject; when `Publish` fails the last step
of the delivery is the error log call. -/
theorem every_decoded_delivery_processed_once (Unmarshal : Bytes → Except String JobEvent)
    (encode : JobCompletionEvent → Bytes) (ds : List Delivery) (t : List Action)
    (ht : Interleaving (ds.map (deliveryTrace (mainHandler Unmarshal encode))) t) :
    (processCalls t).Perm (decodedEvents Unmarshal ds) ∧
    (publishes t).Perm (completionsOf Unmarshal encode ds) ∧
    (publishes t).length = (decodedEvents Unmarshal ds).length ∧
    Action.crash ∉ t ∧
    ∀ d ∈ ds, ∀ e, Unmarshal d.msg.Data = Except.ok e →
      ∃ run, Process NewJobProcessor e d.delay d.roll d.now = some run ∧
        processCalls (deliveryTrace (mainHandler Unmarshal encode) d) = [e] ∧
        publishes (deliveryTrace (mainHandler Unmarshal encode) d) =
          [(JobCompleteSubject, encode run.completion)] ∧
        ∀ err, d.publishErr = some err →
          (deliveryTrace (mainHandler Unmarshal encode) d).getLast? =
            some (Action.log
              { level := Level.error, job_id := some run.completion.JobID,
                err := some err, message := "Failed to publish completion" }) := by
  have hperm := interleaving_perm ht
  have hcalls : (processCalls t).Perm (decodedEvents Unmarshal ds) := by
    rw [← processCalls_flatten Unmarshal encode ds]
    exact List.Perm.filterMap _ hperm
  have hpubs : (publishes t).Perm (completionsOf Unmarshal encode ds) := by
    rw [← publishes_flatten Unmarshal encode ds]
    exact List.Perm.filterMap _ hperm
  refine ⟨hcalls, hpubs, ?_, ?_, ?_⟩
  · rw [hpubs.length_eq, completionsOf_length]
  · intro hmem
    have hmem' := hperm.mem_iff.mp hmem
    obtain ⟨tr, htr, hin⟩ := List.mem_flatten.mp hmem'
    obtain ⟨d, -, rfl⟩ := List.mem_map.mp htr
    exact (deliveryTrace_summary Unmarshal encode d).2.2 hin
  · intro d _ e he
    obtain ⟨run, hrun, htr⟩ := deliveryTrace_decoded Unmarshal encode d e he
    refine ⟨run, hrun, ?_, ?_, ?_⟩
    · simp [htr, processCalls]
    · simp [htr, publishes]
    · intro err herr
      simp [htr, herr]

/-- Claim C6 at a delivery, a malformed message and a redelivery, handled one
after the other. -/
theorem every_decoded_delivery_processed_once_witness :
    Interleaving (sampleDeliveries.map (deliveryTrace (mainHandler sampleUnmarshal sampleEncode)))
        (sampleDeliveries.map
          (deliveryTrace (mainHandler sampleUnmarshal sampleEncode))).flatten ∧
      (processCalls (sampleDeliveries.map
          (deliveryTrace (mainHandler sampleUnmarshal sampleEncode))).flatten).Perm
        (decodedEvents sampleUnmarshal sampleDeliveries) ∧
      decodedEvents sampleUnmarshal sampleDeliveries = [sampleEvent, sampleEvent] :=
  ⟨interleaving_flatten _,
    (every_decoded_delivery_processed_once sampleUnmarshal sampleEncode sampleDeliveries _
      (interleaving_flatten _)).1,
    rfl⟩

/-- Claim C2 as stated fails: two concurrent deliveries of the same message
(job identifier 7) cause two `Process` invocations and two `Publish`
attempts. -/
theorem same_job_delivered_twice_not_processed_once :
    sampleUnmarshal sampleDelivery.msg.Data = Except.ok sampleEvent ∧
    sampleUnmarshal sampleRedelivery.msg.Data = Except.ok sampleEvent ∧
    Shuffle (deliveryTrace (mainHandler sampleUnmarshal sampleEncode) sampleDelivery)
      (deliveryTrace (mainHandler sampleUnmarshal sampleEncode) sampleRedelivery)
      sampleSchedule ∧
    processCalls sampleSchedule = [sampleEvent, sampleEvent] ∧
    (publishes sampleSchedule).length = 2 ∧
    ¬ ((processCalls sampleSchedule).length = 1 ∧ (publishes sampleSchedule).length = 1) :=
  ⟨rfl, rfl, shuffle_alternate _ _, by decide, by decide, by decide⟩

/-- Claim C2, amended: when two deliveries decode to events with the same job
identifier `J`, every interleaving of their steps contains exactly two
`Process` invocations for `J` and exactly two `Publish` attempts on the
completion subject, each of a completion for `J`. -/
theorem same_job_delivered_twice_processed_twice
    (Unmarshal : Bytes → Except String JobEvent) (encode : JobCompletionEvent → Bytes)
    (d₁ d₂ : Delivery) (e₁ e₂ : JobEvent) (J : UUID) (t : List Action)
    (h₁ : Unmarshal d₁.msg.Data = Except.ok e₁) (h₂ : Unmarshal d₂.msg.Data = Except.ok e₂)
    (hJ₁ : e₁.JobID = J) (hJ₂ : e₂.JobID = J)
    (ht : Shuffle (deliveryTrace (mainHandler Unmarshal encode) d₁)
      (deliveryTrace (mainHandler Unmarshal encode) d₂) t) :
    (processCalls t).Perm [e₁, e₂] ∧
    (processCalls t).countP (fun e => decide (e.JobID = J)) = 2 ∧
    ∃ run₁ run₂,
      Process NewJobProcessor e₁ d₁.delay d₁.roll d₁.now = some run₁ ∧
      Process NewJobProcessor e₂ d₂.delay d₂.roll d₂.now = some run₂ ∧
      run₁.completion.JobID = J ∧ run₂.completion.JobID = J ∧
      (publishes t).Perm
        [(JobCompleteSubject, encode run₁.completion),
          (JobCompleteSubject, encode run₂.completion)] ∧
      (publishes t).length = 2 := by
  obtain ⟨run₁, hrun₁, htr₁⟩ := deliveryTrace_decoded Unmarshal encode d₁ e₁ h₁
  obtain ⟨run₂, hrun₂, htr₂⟩ := deliveryTrace_decoded Unmarshal encode d₂ e₂ h₂
  have hperm := shuffle_perm ht
  have hcalls : (processCalls t).Perm [e₁, e₂] := by
    have := List.Perm.filterMap (fun a => match a with
      | Action.invoke e => some e
      | _ => none) hperm
    have happ : processCalls (deliveryTrace (mainHandler Unmarshal encode) d₁ ++
        deliveryTrace (mainHandler Unmarshal encode) d₂) = [e₁, e₂] := by
      rw [processCalls_append, htr₁, htr₂]
      simp [processCalls]
    rw [← happ]
    exact this
  have hpubs : (publishes t).Perm
      [(JobCompleteSubject, encode run₁.completion),
        (JobCompleteSubject, encode run₂.completion)] := by
    have := List.Perm.filterMap (fun a => match a with
      | Action.publish subject data => some (subject, data)
      | _ => none) hperm
    have happ : publishes (deliveryTrace (mainHandler Unmarshal encode) d₁ ++
        deliveryTrace (mainHandler Unmarshal encode) d₂) =
        [(JobCompleteSubject, encode run₁.completion),
          (JobCompleteSubject, encode run₂.completion)] := by
      rw [publishes_append, htr₁, htr₂]
      simp [publishes]
    rw [← happ]
    exact this
  refine ⟨hcalls, ?_, run₁, run₂, hrun₁, hrun₂, ?_, ?_, hpubs, ?_⟩
  · rw [hcalls.countP_eq]
    simp [hJ₁, hJ₂]
  · rw [(Process_spec hrun₁).2.2.2.1, hJ₁]
  · rw [(Process_spec hrun₂).2.2.2.1, hJ₂]
  · rw [hpubs.length_eq]
    rfl

/-- Claim C2, amended, at two alternating deliveries of the same message. -/
theorem same_job_delivered_twice_processed_twice_witness :
    (processCalls sampleSchedule).Perm [sampleEvent, sampleEvent] ∧
      (processCalls sampleSchedule).countP (fun e => decide (e.JobID = 7)) = 2 :=
  ⟨(same_job_delivered_twice_processed_twice sampleUnmarshal sampleEncode sampleDelivery
      sampleRedelivery sampleEvent sampleEvent 7 sampleSchedule rfl rfl rfl rfl
      (shuffle_alternate _ _)).1,
    (same_job_delivered_twice_processed_twice sampleUnmarshal sampleEncode sampleDelivery
      sampleRedelivery sampleEvent sampleEvent 7 sampleSchedule rfl rfl rfl rfl
      (shuffle_alternate _ _)).2.1⟩

end JobProcessorExample
